import Mathlib

/-!
# Verification of the qrproject business-card QR redemption core

Shallow embedding of the Flask application `main.py` (SQLite backend).
Tables `business_cards` and `qr_codes` become lists of records; the SQL
statements of each handler are translated, one by one, into pure Lean
functions over a `DB` state.  Timestamps are modelled as natural-number
clock values; `CURRENT_TIMESTAMP` becomes an explicit `now` argument.
-/

namespace QRProject

/-- A row of the `business_cards` table
(`id TEXT PRIMARY KEY, name TEXT, company_name TEXT NOT NULL, phone TEXT,
created_at TIMESTAMP DEFAULT CURRENT_TIMESTAMP, scan_count INTEGER DEFAULT 0`). -/
structure Card where
  id : String
  name : String
  company_name : String
  phone : String
  created_at : Nat
  scan_count : Nat
  deriving Repr, DecidableEq

/-- A row of the `qr_codes` table
(`id TEXT PRIMARY KEY, code_data TEXT UNIQUE NOT NULL,
created_at TIMESTAMP DEFAULT CURRENT_TIMESTAMP, scanned_at TIMESTAMP NULL,
is_expired BOOLEAN DEFAULT FALSE, business_card_id TEXT NULL`). -/
structure QRCode where
  id : String
  code_data : String
  created_at : Nat
  scanned_at : Option Nat
  is_expired : Bool
  business_card_id : Option String
  deriving Repr, DecidableEq

/-- The database state: the two tables of `init_db`. -/
structure DB where
  business_cards : List Card
  qr_codes : List QRCode
  deriving Repr, DecidableEq

/-- The empty store. -/
def DB.empty : DB := ⟨[], []⟩

/-- `SELECT ... FROM business_cards WHERE id = ?` (primary-key lookup). -/
def findCard (db : DB) (card_id : String) : Option Card :=
  db.business_cards.find? (fun c => c.id == card_id)

/-- Whether a card row with the given primary key exists. -/
def cardIdExists (db : DB) (card_id : String) : Bool :=
  db.business_cards.any (fun c => c.id == card_id)

/-- Whether a code row with the given primary key exists. -/
def codeIdExists (db : DB) (code_id : String) : Bool :=
  db.qr_codes.any (fun q => q.id == code_id)

/-- The code row matched by the join of `business_card_landing`: a row
of `qr_codes` whose id is `qr_id` and whose `business_card_id` is the
requested card. -/
def findOwnedCode (db : DB) (card_id qr_id : String) : Option QRCode :=
  db.qr_codes.find? (fun q => q.id == qr_id && q.business_card_id == some card_id)

/-- The join of `business_card_landing`:
`SELECT bc.name, bc.company_name, bc.phone, bc.scan_count, qr.id, qr.is_expired
 FROM business_cards bc LEFT JOIN qr_codes qr ON bc.id = qr.business_card_id
 WHERE bc.id = ? AND qr.id = ?`.
The `WHERE qr.id = ?` clause discards the NULL-extended rows of the left
join, so a row comes back exactly when the card exists and a code with
that id is owned by it. -/
def joinLookup (db : DB) (card_id qr_id : String) : Option (Card × QRCode) :=
  match findCard db card_id with
  | none => none
  | some c =>
    match findOwnedCode db card_id qr_id with
    | none => none
    | some q => some (c, q)

/-- The four user-visible results of the landing page.  `FIRST_SCAN`
carries the rendered card attributes and the displayed scan count
(the `business_card.html` render); the other three are the
`scan_result.html` renders for "sudah pernah digunakan", "Kartu nama
tidak ditemukan" and "QR code tidak valid". -/
inductive Outcome where
  | FIRST_SCAN (name company_name phone : String) (scan_count : Nat)
  | ALREADY_EXPIRED
  | CARD_NOT_FOUND
  | CODE_INVALID
  deriving Repr, DecidableEq

/-- What the initial read of the redemption path decides, before any
write is issued.  `proceed` records the snapshot of the card row the
handler read (it later renders `scan_count + 1` from this snapshot). -/
inductive ReadDecision where
  | cardNotFound
  | codeInvalid
  | alreadyExpired
  | proceed (name company_name phone : String) (scan_count : Nat)
  deriving Repr, DecidableEq

/-- The read phase of `business_card_landing` with a `qr` parameter:
the join query, the fallback existence check, and the `is_expired` test. -/
def redeemRead (db : DB) (card_id qr_id : String) : ReadDecision :=
  match joinLookup db card_id qr_id with
  | none =>
    if cardIdExists db card_id then ReadDecision.codeInvalid
    else ReadDecision.cardNotFound
  | some (c, q) =>
    if q.is_expired then ReadDecision.alreadyExpired
    else ReadDecision.proceed c.name c.company_name c.phone c.scan_count

/-- `UPDATE qr_codes SET is_expired = TRUE, scanned_at = CURRENT_TIMESTAMP
WHERE id = ?` — note: conditioned on the id only, not on
`is_expired = FALSE`. -/
def expireCode (qs : List QRCode) (now : Nat) (qr_id : String) : List QRCode :=
  qs.map (fun q =>
    if q.id == qr_id then { q with is_expired := true, scanned_at := some now } else q)

/-- `UPDATE business_cards SET scan_count = scan_count + 1 WHERE id = ?`. -/
def bumpScanCount (cs : List Card) (card_id : String) : List Card :=
  cs.map (fun c =>
    if c.id == card_id then { c with scan_count := c.scan_count + 1 } else c)

/-- The write phase of the first-scan branch: the two `UPDATE` statements
committed together by the single `conn.commit()`. -/
def writePhase (db : DB) (now : Nat) (card_id qr_id : String) : DB :=
  { business_cards := bumpScanCount db.business_cards card_id
    qr_codes := expireCode db.qr_codes now qr_id }

/-- One full (uninterleaved) run of the redemption path of
`business_card_landing` for `GET /card/{card_id}?qr={qr_id}`: the read
phase followed, on the unexpired branch, by the write phase; the
rendered scan count is the snapshot value plus one
(`updated_count = scan_count + 1`). -/
def redeem (db : DB) (now : Nat) (card_id qr_id : String) : Outcome × DB :=
  match redeemRead db card_id qr_id with
  | ReadDecision.cardNotFound => (Outcome.CARD_NOT_FOUND, db)
  | ReadDecision.codeInvalid => (Outcome.CODE_INVALID, db)
  | ReadDecision.alreadyExpired => (Outcome.ALREADY_EXPIRED, db)
  | ReadDecision.proceed n o p k =>
    (Outcome.FIRST_SCAN n o p (k + 1), writePhase db now card_id qr_id)

/-- The no-`qr` branch of `business_card_landing`
(`SELECT name, company_name, phone, scan_count FROM business_cards WHERE id = ?`):
a pure read, rendered with the stored scan count. -/
def viewCard (db : DB) (card_id : String) : Outcome × DB :=
  match findCard db card_id with
  | none => (Outcome.CARD_NOT_FOUND, db)
  | some c => (Outcome.FIRST_SCAN c.name c.company_name c.phone c.scan_count, db)

/-- The whole `GET /card/{card_id}` handler: dispatches on whether a
`qr` query parameter was supplied. -/
def business_card_landing (db : DB) (now : Nat) (card_id : String)
    (qr : Option String) : Outcome × DB :=
  match qr with
  | some qr_id => redeem db now card_id qr_id
  | none => viewCard db card_id

/-- Errors of the administrative handlers: HTTP 400 with a validation
message, HTTP 404 "tidak ditemukan", and the catch-all 500 branch
(here: a primary-key clash on insert, which SQLite raises as an
`IntegrityError`; the connection is closed without commit, rolling the
whole statement batch back). -/
inductive RepoError where
  | validation
  | notFound
  | persistence
  deriving Repr, DecidableEq

/-- ASCII whitespace as Python's `str.strip()` removes it. -/
def isPySpace (c : Char) : Bool :=
  c == ' ' || c == '\t' || c == '\n' || c == '\r' || c == '\x0b' || c == '\x0c'

/-- Python's `str.strip()`: drop leading and trailing whitespace. -/
def pyStrip (s : String) : String :=
  ⟨((s.data.dropWhile isPySpace).reverse.dropWhile isPySpace).reverse⟩

/-- `POST /api/business-cards` (`create_business_card`): strips the
three fields, rejects an empty `company_name`, and inserts one row with
`scan_count` defaulting to 0 and `created_at` to the current time.
`new_id` stands for the freshly drawn `uuid.uuid4()`. -/
def create_business_card (db : DB) (now : Nat) (new_id name company_name phone : String) :
    Except RepoError (Card × DB) :=
  if (pyStrip company_name).isEmpty then Except.error RepoError.validation
  else if cardIdExists db new_id then Except.error RepoError.persistence
  else
    Except.ok (⟨new_id, pyStrip name, pyStrip company_name, pyStrip phone, now, 0⟩,
      { db with business_cards := db.business_cards ++
          [⟨new_id, pyStrip name, pyStrip company_name, pyStrip phone, now, 0⟩] })

/-- `DELETE /api/business-cards/{card_id}` (`delete_business_card`):
404 when the card is absent; otherwise
`DELETE FROM qr_codes WHERE business_card_id = ?` (returning
`cursor.rowcount`) then `DELETE FROM business_cards WHERE id = ?`,
both under the one final `conn.commit()`. -/
def delete_business_card (db : DB) (card_id : String) :
    Except RepoError (Nat × DB) :=
  if cardIdExists db card_id then
    let deleted_qr_count := db.qr_codes.countP (fun q => q.business_card_id == some card_id)
    Except.ok (deleted_qr_count,
      { business_cards := db.business_cards.filter (fun c => !(c.id == card_id))
        qr_codes := db.qr_codes.filter (fun q => !(q.business_card_id == some card_id)) })
  else Except.error RepoError.notFound

/-- The redemption URL built for each generated code:
`f"{base_url}/card/{card_id}?qr={code_id}"`. -/
def scanUrl (base_url card_id code_id : String) : String :=
  base_url ++ "/card/" ++ card_id ++ "?qr=" ++ code_id

/-- The row inserted by `generate_business_card_qr` for one minted id:
`INSERT INTO qr_codes (id, code_data, business_card_id) VALUES (?, ?, ?)`
with `created_at` defaulting to the current time, `scanned_at` NULL and
`is_expired` FALSE. -/
def freshCode (now : Nat) (base_url card_id code_id : String) : QRCode :=
  ⟨code_id, scanUrl base_url card_id code_id, now, none, false, some card_id⟩

/-- `POST /api/business-cards/{card_id}/generate-qr`
(`generate_business_card_qr`): checks `1 ≤ quantity ≤ 100` BEFORE the
card-existence query, then inserts one row per minted id under a single
commit.  `new_ids` stands for the sequence of `uuid.uuid4()` draws; a
clash among them or with an existing row aborts the whole batch
(no commit). -/
def generate_business_card_qr (db : DB) (now : Nat) (base_url card_id : String)
    (new_ids : List String) (quantity : Int) :
    Except RepoError (List (String × String) × DB) :=
  if quantity < 1 || quantity > 100 then Except.error RepoError.validation
  else if !(cardIdExists db card_id) then Except.error RepoError.notFound
  else if !(new_ids.Nodup && new_ids.all (fun i => !(codeIdExists db i))) then
    Except.error RepoError.persistence
  else
    Except.ok (new_ids.map (fun i => (i, scanUrl base_url card_id i)),
      { db with qr_codes :=
          db.qr_codes ++ new_ids.map (fun i => freshCode now base_url card_id i) })

/-- The list of suffixes of a character list (itself included, down to `[]`). -/
def suffixes : List Char → List (List Char)
  | [] => [[]]
  | c :: t => (c :: t) :: suffixes t

/-- SQLite `LIKE` over operands that have already been passed through
`LOWER(...)` (as `get_business_cards` does on both sides): `%` matches
any sequence, `_` matches any single character, any other pattern
character matches itself.  Character comparison is plain equality,
which on pre-lowered operands coincides with SQLite's ASCII
case-insensitive comparison. -/
def likeMatch (p : List Char) (t : List Char) : Bool :=
  match p with
  | [] => t.isEmpty
  | a :: p' =>
    if a = '%' then (suffixes t).any (fun u => likeMatch p' u)
    else
      match t with
      | [] => false
      | c :: t' => (a == '_' || a == c) && likeMatch p' t'

/-- ASCII lower-casing of one character, as SQLite's `LOWER` performs it
(non-ASCII characters are left untouched). -/
def lowerChar (c : Char) : Char :=
  if 'A' ≤ c ∧ c ≤ 'Z' then Char.ofNat (c.toNat + 32) else c

/-- `LOWER` over a whole character list. -/
def lowerStr (s : List Char) : List Char := s.map lowerChar

/-- The filter of the search branch of `get_business_cards`:
`WHERE LOWER(bc.company_name) LIKE LOWER('%' || ? || '%')`. -/
def matchesSearch (search : String) (c : Card) : Bool :=
  likeMatch (lowerStr ('%' :: search.data ++ ['%'])) (lowerStr c.company_name.data)

/-- `COUNT(qr.id)` of the `LEFT JOIN qr_codes qr ON bc.id = qr.business_card_id`
group of one card: the number of code rows referencing that card. -/
def qrCount (db : DB) (card_id : String) : Nat :=
  db.qr_codes.countP (fun q => q.business_card_id == some card_id)

/-- One row of the `GET /api/business-cards` response. -/
structure CardSummary where
  id : String
  name : String
  company_name : String
  phone : String
  created_at : Nat
  scan_count : Nat
  qr_count : Nat
  deriving Repr, DecidableEq

/-- The response row built for one card. -/
def summarize (db : DB) (c : Card) : CardSummary :=
  ⟨c.id, c.name, c.company_name, c.phone, c.created_at, c.scan_count, qrCount db c.id⟩

/-- `ORDER BY bc.created_at DESC` as a relation on response rows. -/
def newestFirst (a b : CardSummary) : Prop := b.created_at ≤ a.created_at

instance : DecidableRel newestFirst := fun a b => Nat.decLe b.created_at a.created_at

/-- `GET /api/business-cards` (`get_business_cards`): the raw `search`
argument is stripped; an empty result takes the get-all branch, anything
else filters with the `LIKE` pattern `'%' || search || '%'`; each kept
card is annotated with its code count and the rows come back ordered
newest-first (`ORDER BY bc.created_at DESC`). -/
def get_business_cards (db : DB) (search : String) : List CardSummary :=
  List.insertionSort newestFirst
    ((if (pyStrip search).isEmpty then db.business_cards
      else db.business_cards.filter (matchesSearch (pyStrip search))).map (summarize db))

/-- The operations of the administrative and public surface, each
stamped with the wall-clock instant at which the handler runs. -/
inductive Op where
  | createCard (now : Nat) (new_id name company_name phone : String)
  | generateCodes (now : Nat) (base_url card_id : String) (new_ids : List String) (quantity : Int)
  | redeemOp (now : Nat) (card_id qr_id : String)
  | viewOp (now : Nat) (card_id : String)
  | deleteCard (now : Nat) (card_id : String)
  deriving Repr, DecidableEq

/-- The instant at which an operation runs. -/
def Op.time : Op → Nat
  | Op.createCard now _ _ _ _ => now
  | Op.generateCodes now _ _ _ _ => now
  | Op.redeemOp now _ _ => now
  | Op.viewOp now _ => now
  | Op.deleteCard now _ => now

/-- The state transition of one operation.  Handlers that answer an
error (400/404/500) commit nothing, so they leave the state unchanged. -/
def applyOp (db : DB) : Op → DB
  | Op.createCard now new_id name company_name phone =>
    match create_business_card db now new_id name company_name phone with
    | Except.ok (_, db') => db'
    | Except.error _ => db
  | Op.generateCodes now base_url card_id new_ids quantity =>
    match generate_business_card_qr db now base_url card_id new_ids quantity with
    | Except.ok (_, db') => db'
    | Except.error _ => db
  | Op.redeemOp now card_id qr_id => (redeem db now card_id qr_id).2
  | Op.viewOp _ card_id => (viewCard db card_id).2
  | Op.deleteCard _ card_id =>
    match delete_business_card db card_id with
    | Except.ok (_, db') => db'
    | Except.error _ => db

/-- A finite sequence of operations, applied left to right. -/
def applyOps (db : DB) (ops : List Op) : DB := ops.foldl applyOp db

/-- Primary-key well-formedness of a state: card ids and code ids are
each duplicate-free (the `PRIMARY KEY` constraints of the two tables). -/
def WFdb (db : DB) : Prop :=
  (db.business_cards.map Card.id).Nodup ∧ (db.qr_codes.map QRCode.id).Nodup

instance : DecidablePred WFdb := fun db => by
  unfold WFdb; infer_instance

/-- The outcome a request renders given only its read decision (the
write phase does not change what is rendered: `updated_count` is
computed from the snapshot as `scan_count + 1`). -/
def decisionOutcome : ReadDecision → Outcome
  | ReadDecision.cardNotFound => Outcome.CARD_NOT_FOUND
  | ReadDecision.codeInvalid => Outcome.CODE_INVALID
  | ReadDecision.alreadyExpired => Outcome.ALREADY_EXPIRED
  | ReadDecision.proceed n o p k => Outcome.FIRST_SCAN n o p (k + 1)

/-- Whether the request proceeds to the write phase. -/
def decisionWrites : ReadDecision → Bool
  | ReadDecision.proceed _ _ _ _ => true
  | _ => false

/-- Two concurrent invocations of the redemption path for the same
`(card_id, qr_id)`, interleaved read-read-write-write: each worker runs
the `SELECT` outside any write transaction, so both can read before
either `UPDATE` commits; the `UPDATE` on `qr_codes` is conditioned on
the id only, so the race loser's writes also apply.  Returns the two
rendered outcomes and the final state. -/
def twoConcurrentRedeems (db : DB) (t1 t2 : Nat) (card_id qr_id : String) :
    (Outcome × Outcome) × DB :=
  let d1 := redeemRead db card_id qr_id
  let d2 := redeemRead db card_id qr_id
  let db1 := if decisionWrites d1 then writePhase db t1 card_id qr_id else db
  let db2 := if decisionWrites d2 then writePhase db1 t2 card_id qr_id else db1
  ((decisionOutcome d1, decisionOutcome d2), db2)

/-- The stored scan count of a card row, by primary key. -/
def scanCountOf (db : DB) (card_id : String) : Option Nat :=
  (findCard db card_id).map Card.scan_count

/-- Referential integrity (spec invariant I4): every non-null
`business_card_id` of a code row names an existing card. -/
def refOK (db : DB) : Prop :=
  ∀ q ∈ db.qr_codes, ∀ x, q.business_card_id = some x → cardIdExists db x = true

/-- Counter consistency (spec invariant I3 / P4): each card's
`scan_count` equals the number of its expired codes. -/
def counterOK (db : DB) : Prop :=
  ∀ c ∈ db.business_cards,
    c.scan_count = db.qr_codes.countP
      (fun q => q.business_card_id == some c.id && q.is_expired)

/-- The combined state invariant maintained by every handler. -/
def Inv (db : DB) : Prop := WFdb db ∧ refOK db ∧ counterOK db

/-- Spec invariant I1: an expired code carries a scan timestamp no
earlier than its creation timestamp. -/
def I1 (db : DB) : Prop :=
  ∀ q ∈ db.qr_codes, q.is_expired = true →
    ∃ t, q.scanned_at = some t ∧ q.created_at ≤ t

/-- All code rows were created at or before instant `n`. -/
def clockLE (db : DB) (n : Nat) : Prop :=
  ∀ q ∈ db.qr_codes, q.created_at ≤ n

/-- The operations of a sequence run at non-decreasing wall-clock
instants, the first no earlier than `n`. -/
def Chrono : Nat → List Op → Prop
  | _, [] => True
  | n, op :: ops => n ≤ op.time ∧ Chrono op.time ops

/-- The state fact established by a `FIRST_SCAN` on `(card_id, qr_id)`:
the card row exists and an expired code row with that id is owned by it. -/
def expiredOwned (db : DB) (card_id qr_id : String) : Prop :=
  cardIdExists db card_id = true ∧
  ∃ q ∈ db.qr_codes, q.id = qr_id ∧ q.business_card_id = some card_id ∧ q.is_expired = true

/-- Whether an operation is the deletion of the given card. -/
def deletesCard : Op → String → Prop
  | Op.deleteCard _ c, card_id => c = card_id
  | _, _ => False

/-- A search string free of SQL `LIKE` wildcards. -/
def noWildcards (s : String) : Bool :=
  s.data.all (fun c => !(c == '%') && !(c == '_'))

/-- The spec's reading of the search filter: the search string occurs in
the organization name as a case-insensitive substring. -/
def containsCI (search company : String) : Prop :=
  lowerStr search.data <:+: lowerStr company.data

instance : ∀ s c, Decidable (containsCI s c) := fun s c => by
  unfold containsCI; infer_instance

/-- The card row used by concrete witness states. -/
def cardEx : Card := ⟨"c1", "Ann", "Acme", "0812", 0, 0⟩

/-- An unexpired code row owned by `cardEx`. -/
def codeEx : QRCode := ⟨"q1", "u/card/c1?qr=q1", 0, none, false, some "c1"⟩

/-- A witness state: one card owning one unexpired code. -/
def dbEx : DB := ⟨[cardEx], [codeEx]⟩

/-- A witness state: one card owning one expired code. -/
def dbExExpired : DB :=
  ⟨[⟨"c1", "Ann", "Acme", "0812", 0, 1⟩],
   [⟨"q1", "u/card/c1?qr=q1", 0, some 3, true, some "c1"⟩]⟩

/-- A state whose single card has organization name "x", used to show
that `LIKE` wildcards in the search string break the substring reading
of the card-list filter. -/
def dbLike : DB := ⟨[⟨"c1", "", "x", "", 0, 0⟩], []⟩

/-! ## Lookup lemmas -/

theorem card_unique {db : DB} (hwf : WFdb db) {a b : Card}
    (ha : a ∈ db.business_cards) (hb : b ∈ db.business_cards) (h : a.id = b.id) : a = b :=
  List.inj_on_of_nodup_map hwf.1 ha hb h

theorem code_unique {db : DB} (hwf : WFdb db) {a b : QRCode}
    (ha : a ∈ db.qr_codes) (hb : b ∈ db.qr_codes) (h : a.id = b.id) : a = b :=
  List.inj_on_of_nodup_map hwf.2 ha hb h

theorem cardIdExists_iff {db : DB} {cid : String} :
    cardIdExists db cid = true ↔ ∃ c ∈ db.business_cards, c.id = cid := by
  simp [cardIdExists]

theorem codeIdExists_iff {db : DB} {qid : String} :
    codeIdExists db qid = true ↔ ∃ q ∈ db.qr_codes, q.id = qid := by
  simp [codeIdExists]

theorem findCard_eq_none {db : DB} {cid : String} :
    findCard db cid = none ↔ ∀ c ∈ db.business_cards, c.id ≠ cid := by
  simp [findCard, List.find?_eq_none]

theorem findCard_mem {db : DB} {cid : String} {c : Card} (h : findCard db cid = some c) :
    c ∈ db.business_cards ∧ c.id = cid := by
  refine ⟨List.mem_of_find?_eq_some h, ?_⟩
  have h2 := List.find?_some h
  simpa using h2

theorem findCard_of_mem {db : DB} {cid : String} {c : Card} (hwf : WFdb db)
    (hc : c ∈ db.business_cards) (hid : c.id = cid) : findCard db cid = some c := by
  cases hfind : findCard db cid with
  | none => exact absurd hid (findCard_eq_none.mp hfind c hc)
  | some c2 =>
    obtain ⟨hc2, hid2⟩ := findCard_mem hfind
    rw [card_unique hwf hc2 hc (by rw [hid2, hid])]

theorem cardIdExists_of_findCard {db : DB} {cid : String} {c : Card}
    (h : findCard db cid = some c) : cardIdExists db cid = true :=
  cardIdExists_iff.mpr ⟨c, (findCard_mem h).1, (findCard_mem h).2⟩

theorem cardIdExists_false_of_findCard {db : DB} {cid : String}
    (h : findCard db cid = none) : cardIdExists db cid = false := by
  cases hb : cardIdExists db cid with
  | false => rfl
  | true =>
    obtain ⟨c, hc, hid⟩ := cardIdExists_iff.mp hb
    exact absurd hid (findCard_eq_none.mp h c hc)

theorem findCard_isSome_of_exists {db : DB} {cid : String}
    (h : cardIdExists db cid = true) : ∃ c, findCard db cid = some c := by
  cases hfind : findCard db cid with
  | none =>
    obtain ⟨c, hc, hid⟩ := cardIdExists_iff.mp h
    exact absurd hid (findCard_eq_none.mp hfind c hc)
  | some c => exact ⟨c, rfl⟩

theorem findOwnedCode_eq_none {db : DB} {cid qid : String} :
    findOwnedCode db cid qid = none ↔
      ∀ q ∈ db.qr_codes, ¬(q.id = qid ∧ q.business_card_id = some cid) := by
  simp [findOwnedCode, List.find?_eq_none]

theorem findOwnedCode_mem {db : DB} {cid qid : String} {q : QRCode}
    (h : findOwnedCode db cid qid = some q) :
    q ∈ db.qr_codes ∧ q.id = qid ∧ q.business_card_id = some cid := by
  refine ⟨List.mem_of_find?_eq_some h, ?_⟩
  have h2 := List.find?_some h
  simpa using h2

theorem findOwnedCode_of_mem {db : DB} {cid qid : String} {q : QRCode} (hwf : WFdb db)
    (hq : q ∈ db.qr_codes) (hid : q.id = qid) (hown : q.business_card_id = some cid) :
    findOwnedCode db cid qid = some q := by
  cases hfind : findOwnedCode db cid qid with
  | none => exact absurd ⟨hid, hown⟩ (findOwnedCode_eq_none.mp hfind q hq)
  | some q2 =>
    obtain ⟨hq2, hid2, _⟩ := findOwnedCode_mem hfind
    rw [code_unique hwf hq2 hq (by rw [hid2, hid])]

/-! ## C2: outcome classification of `redeem` -/

/-- C2: for every caller-supplied `card_id` and `code_id`,
`redeem` returns `CARD_NOT_FOUND` when no card with `card_id` exists,
`CODE_INVALID` when the card exists but no code row with that id is
owned by it (in particular a foreign code never yields `FIRST_SCAN`),
`ALREADY_EXPIRED` when the owned code exists expired, and `FIRST_SCAN`
when the owned code exists unexpired. -/
theorem C2_redeem_outcome_classification (db : DB) (now : Nat) (cid qid : String)
    (hwf : WFdb db) :
    ((∀ c ∈ db.business_cards, c.id ≠ cid) →
        (redeem db now cid qid).1 = Outcome.CARD_NOT_FOUND) ∧
    ((∃ c ∈ db.business_cards, c.id = cid) →
      (∀ q ∈ db.qr_codes, ¬(q.id = qid ∧ q.business_card_id = some cid)) →
        (redeem db now cid qid).1 = Outcome.CODE_INVALID) ∧
    ((∃ c ∈ db.business_cards, c.id = cid) →
      ∀ q ∈ db.qr_codes, q.id = qid → q.business_card_id = some cid → q.is_expired = true →
        (redeem db now cid qid).1 = Outcome.ALREADY_EXPIRED) ∧
    (∀ c ∈ db.business_cards, c.id = cid →
      ∀ q ∈ db.qr_codes, q.id = qid → q.business_card_id = some cid → q.is_expired = false →
        (redeem db now cid qid).1 =
          Outcome.FIRST_SCAN c.name c.company_name c.phone (c.scan_count + 1)) := by
  refine ⟨?_, ?_, ?_, ?_⟩
  · intro h
    have hfc : findCard db cid = none := findCard_eq_none.mpr h
    simp [redeem, redeemRead, joinLookup, hfc, cardIdExists_false_of_findCard hfc]
  · rintro ⟨c, hc, hid⟩ h
    have hfc : findCard db cid = some c := findCard_of_mem hwf hc hid
    have hfq : findOwnedCode db cid qid = none := findOwnedCode_eq_none.mpr h
    simp [redeem, redeemRead, joinLookup, hfc, hfq, cardIdExists_of_findCard hfc]
  · rintro ⟨c, hc, hid⟩ q hq hqid hown hexp
    have hfc : findCard db cid = some c := findCard_of_mem hwf hc hid
    have hfq : findOwnedCode db cid qid = some q := findOwnedCode_of_mem hwf hq hqid hown
    simp [redeem, redeemRead, joinLookup, hfc, hfq, hexp]
  · intro c hc hid q hq hqid hown hexp
    have hfc : findCard db cid = some c := findCard_of_mem hwf hc hid
    have hfq : findOwnedCode db cid qid = some q := findOwnedCode_of_mem hwf hq hqid hown
    simp [redeem, redeemRead, joinLookup, hfc, hfq, hexp]

/-- Witness for C2 at a concrete state: for the one-card one-code store
the unexpired branch fires and renders a first scan. -/
theorem C2_redeem_outcome_classification_witness :
    (redeem dbEx 5 "c1" "q1").1 = Outcome.FIRST_SCAN "Ann" "Acme" "0812" 1 :=
  (C2_redeem_outcome_classification dbEx 5 "c1" "q1" (by decide)).2.2.2
    cardEx (by decide) (by decide) codeEx (by decide) (by decide) (by decide) (by decide)

/-! ## C1: the at-most-once guarantee fails under interleaving -/

/-- C1: the redemption path reads `is_expired` outside the write
transaction and its `UPDATE` is conditioned on the id only, so in the
read-read-write-write interleaving of two concurrent redeem calls for
the same correct `(card_id, code_id)` pair BOTH calls render
`FIRST_SCAN` and the owner's `scan_count` rises by 2 — against the
claimed single `FIRST_SCAN` and increment by 1 (which the sequential
run, last conjunct, does deliver). -/
theorem C1_race_two_first_scans :
    (twoConcurrentRedeems dbEx 5 6 "c1" "q1").1.1 = Outcome.FIRST_SCAN "Ann" "Acme" "0812" 1 ∧
    (twoConcurrentRedeems dbEx 5 6 "c1" "q1").1.2 = Outcome.FIRST_SCAN "Ann" "Acme" "0812" 1 ∧
    scanCountOf (twoConcurrentRedeems dbEx 5 6 "c1" "q1").2 "c1" = some 2 ∧
    scanCountOf (redeem dbEx 5 "c1" "q1").2 "c1" = some 1 := by decide

/-! ## C7: the expired fast path and `view` perform no writes -/

/-- C7: a redeem call that answers `ALREADY_EXPIRED` leaves every card
row and code row unchanged, and every `view(card_id)` call — whatever
the state — leaves every card row and code row unchanged. -/
theorem C7_expired_and_view_no_writes (db : DB) (now : Nat) (cid qid vcid : String) :
    ((redeem db now cid qid).1 = Outcome.ALREADY_EXPIRED →
      (redeem db now cid qid).2 = db) ∧
    (viewCard db vcid).2 = db := by
  constructor
  · intro h
    rcases hr : redeemRead db cid qid <;> simp [redeem, hr] at h ⊢
  · rcases h : findCard db vcid <;> simp [viewCard, h]

/-- Witness for C7: the expired branch is non-vacuous at the
one-expired-code store, and view on the empty store changes nothing. -/
theorem C7_expired_and_view_no_writes_witness :
    (redeem dbExExpired 9 "c1" "q1").2 = dbExExpired ∧
    (viewCard DB.empty "c1").2 = DB.empty :=
  ⟨(C7_expired_and_view_no_writes dbExExpired 9 "c1" "q1" "c1").1 (by decide),
   (C7_expired_and_view_no_writes DB.empty 0 "c1" "q1" "c1").2⟩

/-! ## C6: the FIRST_SCAN payload -/

theorem redeemRead_proceed {db : DB} {cid qid n o p : String} {k : Nat}
    (h : redeemRead db cid qid = ReadDecision.proceed n o p k) :
    ∃ c q, findCard db cid = some c ∧ findOwnedCode db cid qid = some q ∧
      q.is_expired = false ∧ n = c.name ∧ o = c.company_name ∧ p = c.phone ∧
      k = c.scan_count := by
  unfold redeemRead joinLookup at h
  rcases hfc : findCard db cid with _ | c
  · simp only [hfc] at h
    by_cases hce : cardIdExists db cid = true <;> simp [hce] at h
  · simp only [hfc] at h
    rcases hfq : findOwnedCode db cid qid with _ | q
    · simp only [hfq] at h
      by_cases hce : cardIdExists db cid = true <;> simp [hce] at h
    · simp only [hfq] at h
      rcases hexp : q.is_expired with _ | _
      · simp [hexp] at h
        obtain ⟨h1, h2, h3, h4⟩ := h
        exact ⟨c, q, rfl, rfl, hexp, h1.symm, h2.symm, h3.symm, h4.symm⟩
      · simp [hexp] at h

theorem bumpScanCount_mem {cs : List Card} {cid : String} {c2 : Card}
    (h : c2 ∈ bumpScanCount cs cid) :
    ∃ c0 ∈ cs, c2 = if c0.id == cid then { c0 with scan_count := c0.scan_count + 1 } else c0 := by
  unfold bumpScanCount at h
  obtain ⟨c0, hc0, h0⟩ := List.mem_map.mp h
  exact ⟨c0, hc0, h0.symm⟩

/-- C6: a `FIRST_SCAN` outcome carries exactly the card's stored display
attributes and a scan count one above the pre-transition value, which
equals the stored `scan_count` of that card after the writes commit. -/
theorem C6_first_scan_payload (db : DB) (now : Nat) (cid qid n o p : String) (k : Nat)
    (hwf : WFdb db)
    (h : (redeem db now cid qid).1 = Outcome.FIRST_SCAN n o p k) :
    ∃ c ∈ db.business_cards, c.id = cid ∧ n = c.name ∧ o = c.company_name ∧ p = c.phone ∧
      k = c.scan_count + 1 ∧
      ∀ c2 ∈ (redeem db now cid qid).2.business_cards, c2.id = cid → c2.scan_count = k := by
  rcases hr : redeemRead db cid qid with _ | _ | _ | ⟨n', o', p', k'⟩ <;> simp [redeem, hr] at h
  obtain ⟨hn, ho, hp, hk⟩ := h
  obtain ⟨c, q, hfc, hfq, hexp, hn', ho', hp', hk'⟩ := redeemRead_proceed hr
  obtain ⟨hcmem, hcid⟩ := findCard_mem hfc
  have hsnd : (redeem db now cid qid).2 = writePhase db now cid qid := by
    simp [redeem, hr]
  refine ⟨c, hcmem, hcid, ?_, ?_, ?_, ?_, ?_⟩
  · rw [← hn, hn']
  · rw [← ho, ho']
  · rw [← hp, hp']
  · rw [← hk, hk']
  · intro c2 hc2 hc2id
    rw [hsnd] at hc2
    simp only [writePhase] at hc2
    obtain ⟨c0, hc0, hc0eq⟩ := bumpScanCount_mem hc2
    by_cases hid : c0.id = cid
    · have hc0c : c0 = c := card_unique hwf hc0 hcmem (hid.trans hcid.symm)
      subst hc0c
      rw [if_pos (by simp [hid])] at hc0eq
      rw [hc0eq]
      simp [← hk, hk']
    · rw [if_neg (by simp [hid])] at hc0eq
      subst hc0eq
      exact absurd hc2id hid

/-- Witness for C6 at the one-card one-code store. -/
theorem C6_first_scan_payload_witness :
    ∃ c ∈ dbEx.business_cards, c.id = "c1" ∧ "Ann" = c.name ∧ "Acme" = c.company_name ∧
      "0812" = c.phone ∧ 1 = c.scan_count + 1 ∧
      ∀ c2 ∈ (redeem dbEx 5 "c1" "q1").2.business_cards, c2.id = "c1" → c2.scan_count = 1 :=
  C6_first_scan_payload dbEx 5 "c1" "q1" "Ann" "Acme" "0812" 1 (by decide) (by decide)

/-! ## C5: cascade delete -/

/-- C5: `deleteCard` answers 404 and changes nothing when the card is
absent; otherwise it removes, in one commit, exactly the code rows owned
by the card and then the card row, reports how many codes went, and
afterwards no owned code row remains and redeeming any former code
answers `CARD_NOT_FOUND`. -/
theorem C5_delete_card_cascade (db : DB) (t now : Nat) (cid qid : String) :
    (cardIdExists db cid = false →
        delete_business_card db cid = Except.error RepoError.notFound ∧
        applyOp db (Op.deleteCard t cid) = db) ∧
    (cardIdExists db cid = true →
      ∃ db2, delete_business_card db cid =
          Except.ok (db.qr_codes.countP (fun q => q.business_card_id == some cid), db2) ∧
        applyOp db (Op.deleteCard t cid) = db2 ∧
        (∀ q ∈ db2.qr_codes, ¬ q.business_card_id = some cid) ∧
        (∀ q, q ∈ db2.qr_codes ↔ q ∈ db.qr_codes ∧ ¬ q.business_card_id = some cid) ∧
        (∀ c, c ∈ db2.business_cards ↔ c ∈ db.business_cards ∧ ¬ c.id = cid) ∧
        (redeem db2 now cid qid).1 = Outcome.CARD_NOT_FOUND) := by
  constructor
  · intro h
    constructor
    · unfold delete_business_card
      rw [h]
      simp
    · simp only [applyOp, delete_business_card, h]
      simp
  · intro h
    refine ⟨⟨db.business_cards.filter (fun c => !(c.id == cid)),
             db.qr_codes.filter (fun q => !(q.business_card_id == some cid))⟩,
           ?_, ?_, ?_, ?_, ?_, ?_⟩
    · unfold delete_business_card
      rw [h]
      simp
    · simp only [applyOp, delete_business_card, h]
      simp
    · intro q hq
      have := List.of_mem_filter hq
      simpa using this
    · intro q
      constructor
      · intro hq
        refine ⟨List.mem_of_mem_filter hq, ?_⟩
        have := List.of_mem_filter hq
        simpa using this
      · intro ⟨hq, hown⟩
        exact List.mem_filter.mpr ⟨hq, by simpa using hown⟩
    · intro c
      constructor
      · intro hc
        refine ⟨List.mem_of_mem_filter hc, ?_⟩
        have := List.of_mem_filter hc
        simpa using this
      · intro ⟨hc, hid⟩
        exact List.mem_filter.mpr ⟨hc, by simpa using hid⟩
    · have hfc : findCard
          (DB.mk (db.business_cards.filter (fun c => !(c.id == cid)))
            (db.qr_codes.filter (fun q => !(q.business_card_id == some cid)))) cid = none := by
        apply findCard_eq_none.mpr
        intro c hc
        have := List.of_mem_filter hc
        simpa using this
      simp [redeem, redeemRead, joinLookup, hfc, cardIdExists_false_of_findCard hfc]

/-! ## Effect lemmas for the write phases -/

theorem any_over_map {α β : Type} (f : α → β) (l : List α) (p : β → Bool) :
    (l.map f).any p = l.any (fun a => p (f a)) := by
  induction l with
  | nil => rfl
  | cons a l ih => simp [ih]

theorem expireCode_map_id (qs : List QRCode) (now : Nat) (qid : String) :
    (expireCode qs now qid).map QRCode.id = qs.map QRCode.id := by
  unfold expireCode
  rw [List.map_map]
  apply List.map_congr_left
  intro q _
  by_cases h : q.id = qid <;> simp [h]

theorem bumpScanCount_map_id (cs : List Card) (cid : String) :
    (bumpScanCount cs cid).map Card.id = cs.map Card.id := by
  unfold bumpScanCount
  rw [List.map_map]
  apply List.map_congr_left
  intro c _
  by_cases h : c.id = cid <;> simp [h]

theorem cardIdExists_eq (db : DB) (x : String) :
    cardIdExists db x = (db.business_cards.map Card.id).any (fun i => i == x) := by
  unfold cardIdExists
  rw [any_over_map]

theorem codeIdExists_eq (db : DB) (x : String) :
    codeIdExists db x = (db.qr_codes.map QRCode.id).any (fun i => i == x) := by
  unfold codeIdExists
  rw [any_over_map]

theorem cardIdExists_writePhase (db : DB) (now : Nat) (cid qid x : String) :
    cardIdExists (writePhase db now cid qid) x = cardIdExists db x := by
  rw [cardIdExists_eq, cardIdExists_eq]
  unfold writePhase
  rw [bumpScanCount_map_id]

theorem expireCode_mem {qs : List QRCode} {now : Nat} {qid : String} {q2 : QRCode}
    (h : q2 ∈ expireCode qs now qid) :
    ∃ q0 ∈ qs, q2 = if q0.id == qid
      then { q0 with is_expired := true, scanned_at := some now } else q0 := by
  unfold expireCode at h
  obtain ⟨q0, hq0, h0⟩ := List.mem_map.mp h
  exact ⟨q0, hq0, h0.symm⟩

theorem expireCode_eq_self {qs : List QRCode} {now : Nat} {qid : String}
    (h : ∀ q ∈ qs, q.id ≠ qid) : expireCode qs now qid = qs := by
  unfold expireCode
  rw [show qs.map _ = qs.map id from List.map_congr_left ?_, List.map_id]
  intro q hq
  simp [h q hq]

theorem countP_filter_eq {α : Type} {l : List α} {p keep : α → Bool}
    (h : ∀ a ∈ l, p a = true → keep a = true) :
    (l.filter keep).countP p = l.countP p := by
  induction l with
  | nil => rfl
  | cons a l ih =>
    have ihl := ih (fun b hb => h b (List.mem_cons_of_mem a hb))
    by_cases hk : keep a = true
    · rw [List.filter_cons_of_pos hk, List.countP_cons, List.countP_cons, ihl]
    · have hp : p a = false := by
        cases hpa : p a with
        | false => rfl
        | true => exact absurd (h a (List.mem_cons_self a l) hpa) hk
      rw [List.filter_cons_of_neg (by simpa using hk), List.countP_cons, hp]
      simp [ihl]

theorem countP_expireCode_other {qs : List QRCode} {now : Nat} {qid x : String}
    (h : ∀ q ∈ qs, q.id = qid → q.business_card_id ≠ some x) :
    (expireCode qs now qid).countP (fun q => q.business_card_id == some x && q.is_expired)
      = qs.countP (fun q => q.business_card_id == some x && q.is_expired) := by
  induction qs with
  | nil => rfl
  | cons q qs ih =>
    have ihq := ih (fun r hr => h r (List.mem_cons_of_mem q hr))
    unfold expireCode at ihq ⊢
    rw [List.map_cons, List.countP_cons, List.countP_cons, ihq]
    by_cases hq : q.id == qid
    · have hown : q.business_card_id ≠ some x := h q (List.mem_cons_self q qs) (by simpa using hq)
      simp [hq, hown]
    · simp [hq]

theorem countP_expireCode_bump {qs : List QRCode} {now : Nat} {qid x : String}
    (hnodup : (qs.map QRCode.id).Nodup) {q0 : QRCode} (hq0 : q0 ∈ qs) (hid : q0.id = qid)
    (hown : q0.business_card_id = some x) (hunexp : q0.is_expired = false) :
    (expireCode qs now qid).countP (fun q => q.business_card_id == some x && q.is_expired)
      = qs.countP (fun q => q.business_card_id == some x && q.is_expired) + 1 := by
  induction qs with
  | nil => cases hq0
  | cons q qs ih =>
    rw [List.map_cons, List.nodup_cons] at hnodup
    rcases List.mem_cons.mp hq0 with rfl | hmem
    · have htail : expireCode qs now qid = qs := by
        apply expireCode_eq_self
        intro r hr hrid
        apply hnodup.1
        have hmm : r.id ∈ qs.map QRCode.id := List.mem_map_of_mem QRCode.id hr
        rwa [hrid, ← hid] at hmm
      unfold expireCode
      rw [List.map_cons, List.countP_cons, List.countP_cons]
      unfold expireCode at htail
      rw [htail]
      simp [hid, hown, hunexp]
    · have hqid : q.id ≠ qid := by
        intro hq
        exact hnodup.1 (hq ▸ hid ▸ List.mem_map_of_mem QRCode.id hmem)
      have ihq := ih hnodup.2 hmem
      unfold expireCode at ihq ⊢
      rw [List.map_cons, List.countP_cons, List.countP_cons, ihq]
      simp [hqid]
      omega

/-! ## Case characterizations of `applyOp` -/

theorem cardIdExists_false_iff {db : DB} {x : String} :
    cardIdExists db x = false ↔ ∀ c ∈ db.business_cards, c.id ≠ x := by
  constructor
  · intro h c hc hcx
    have h2 := cardIdExists_iff.mpr ⟨c, hc, hcx⟩
    rw [h] at h2
    cases h2
  · intro h
    cases hb : cardIdExists db x with
    | false => rfl
    | true =>
      obtain ⟨c, hc, hcx⟩ := cardIdExists_iff.mp hb
      exact absurd hcx (h c hc)

theorem codeIdExists_false_iff {db : DB} {x : String} :
    codeIdExists db x = false ↔ ∀ q ∈ db.qr_codes, q.id ≠ x := by
  constructor
  · intro h q hq hqx
    have h2 := codeIdExists_iff.mpr ⟨q, hq, hqx⟩
    rw [h] at h2
    cases h2
  · intro h
    cases hb : codeIdExists db x with
    | false => rfl
    | true =>
      obtain ⟨q, hq, hqx⟩ := codeIdExists_iff.mp hb
      exact absurd hqx (h q hq)

theorem freshCode_map_id (now : Nat) (base cid : String) (ids : List String) :
    (ids.map (freshCode now base cid)).map QRCode.id = ids := by
  rw [List.map_map]
  rw [show (QRCode.id ∘ freshCode now base cid) = id from ?_, List.map_id]
  funext i
  rfl

theorem applyOp_createCard (db : DB) (now : Nat) (i n cn p : String) :
    applyOp db (Op.createCard now i n cn p) = db ∨
    ((pyStrip cn).isEmpty = false ∧ cardIdExists db i = false ∧
      applyOp db (Op.createCard now i n cn p) =
        { db with business_cards :=
            db.business_cards ++ [⟨i, pyStrip n, pyStrip cn, pyStrip p, now, 0⟩] }) := by
  by_cases h1 : (pyStrip cn).isEmpty
  · left
    simp [applyOp, create_business_card, h1]
  · by_cases h2 : cardIdExists db i
    · left
      simp [applyOp, create_business_card, h1, h2]
    · right
      refine ⟨by simpa using h1, by simpa using h2, ?_⟩
      simp [applyOp, create_business_card, h1, h2]

theorem applyOp_generateCodes (db : DB) (now : Nat) (base cid : String)
    (ids : List String) (qty : Int) :
    applyOp db (Op.generateCodes now base cid ids qty) = db ∨
    (cardIdExists db cid = true ∧ ids.Nodup ∧ (∀ i ∈ ids, codeIdExists db i = false) ∧
      applyOp db (Op.generateCodes now base cid ids qty) =
        { db with qr_codes := db.qr_codes ++ ids.map (freshCode now base cid) }) := by
  by_cases h1 : qty < 1 ∨ qty > 100
  · left
    simp [applyOp, generate_business_card_qr, h1]
  · by_cases h2 : cardIdExists db cid = true
    · by_cases h3 : ids.Nodup
      · by_cases h4 : ∀ i ∈ ids, codeIdExists db i = false
        · right
          refine ⟨h2, h3, h4, ?_⟩
          have h5 : ¬∃ x ∈ ids, codeIdExists db x = true := by
            push_neg
            intro i hi
            simp [h4 i hi]
          simp [applyOp, generate_business_card_qr, h1, h2, h3, h5]
        · left
          have h5 : ∃ x ∈ ids, codeIdExists db x = true := by
            push_neg at h4
            obtain ⟨i, hi, hne⟩ := h4
            exact ⟨i, hi, by simpa using hne⟩
          simp [applyOp, generate_business_card_qr, h1, h2, h3, h5]
      · left
        simp [applyOp, generate_business_card_qr, h1, h2, h3]
    · left
      simp [applyOp, generate_business_card_qr, h1,
        Bool.not_eq_true .. ▸ h2]

theorem applyOp_redeem (db : DB) (now : Nat) (cid qid : String) :
    applyOp db (Op.redeemOp now cid qid) = db ∨
    (∃ c q, findCard db cid = some c ∧ findOwnedCode db cid qid = some q ∧
      q.is_expired = false ∧
      applyOp db (Op.redeemOp now cid qid) = writePhase db now cid qid) := by
  rcases hr : redeemRead db cid qid with _ | _ | _ | ⟨n, o, p, k⟩
  · left
    simp [applyOp, redeem, hr]
  · left
    simp [applyOp, redeem, hr]
  · left
    simp [applyOp, redeem, hr]
  · right
    obtain ⟨c, q, hfc, hfq, hexp, _, _, _, _⟩ := redeemRead_proceed hr
    exact ⟨c, q, hfc, hfq, hexp, by simp [applyOp, redeem, hr]⟩

theorem applyOp_view (db : DB) (t : Nat) (cid : String) :
    applyOp db (Op.viewOp t cid) = db := by
  rcases h : findCard db cid <;> simp [applyOp, viewCard, h]

theorem applyOp_deleteCard (db : DB) (t : Nat) (cid : String) :
    applyOp db (Op.deleteCard t cid) = db ∨
    (cardIdExists db cid = true ∧
      applyOp db (Op.deleteCard t cid) =
        ⟨db.business_cards.filter (fun c => !(c.id == cid)),
         db.qr_codes.filter (fun q => !(q.business_card_id == some cid))⟩) := by
  by_cases h : cardIdExists db cid = true
  · right
    exact ⟨h, by simp [applyOp, delete_business_card, h]⟩
  · left
    simp [applyOp, delete_business_card, Bool.not_eq_true .. ▸ h]

/-! ## Preservation of primary-key well-formedness -/

theorem WF_writePhase {db : DB} (hwf : WFdb db) (now : Nat) (cid qid : String) :
    WFdb (writePhase db now cid qid) := by
  constructor
  · simp only [writePhase]
    rw [bumpScanCount_map_id]
    exact hwf.1
  · simp only [writePhase]
    rw [expireCode_map_id]
    exact hwf.2

theorem WF_applyOp {db : DB} (hwf : WFdb db) (op : Op) : WFdb (applyOp db op) := by
  cases op with
  | createCard now i n cn p =>
    rcases applyOp_createCard db now i n cn p with h | ⟨_, h2, h⟩
    · rw [h]; exact hwf
    · rw [h]
      refine ⟨?_, hwf.2⟩
      simp only [List.map_append, List.map_cons, List.map_nil]
      rw [List.nodup_append]
      refine ⟨hwf.1, List.nodup_singleton i, ?_⟩
      intro a ha hai
      obtain ⟨c, hc, hca⟩ := List.mem_map.mp ha
      have hai2 : a = i := by simpa using hai
      exact cardIdExists_false_iff.mp h2 c hc (hca.trans hai2)
  | generateCodes now base cid ids qty =>
    rcases applyOp_generateCodes db now base cid ids qty with h | ⟨_, h3, h4, h⟩
    · rw [h]; exact hwf
    · rw [h]
      refine ⟨hwf.1, ?_⟩
      simp only [List.map_append]
      rw [freshCode_map_id, List.nodup_append]
      refine ⟨hwf.2, h3, ?_⟩
      intro a ha hai
      obtain ⟨q, hq, hqa⟩ := List.mem_map.mp ha
      exact codeIdExists_false_iff.mp (h4 a hai) q hq hqa
  | redeemOp now cid qid =>
    rcases applyOp_redeem db now cid qid with h | ⟨_, _, _, _, _, h⟩
    · rw [h]; exact hwf
    · rw [h]; exact WF_writePhase hwf now cid qid
  | viewOp t cid =>
    rw [applyOp_view]; exact hwf
  | deleteCard t cid =>
    rcases applyOp_deleteCard db t cid with h | ⟨_, h⟩
    · rw [h]; exact hwf
    · rw [h]
      constructor
      · exact hwf.1.sublist ((List.filter_sublist _).map Card.id)
      · exact hwf.2.sublist ((List.filter_sublist _).map QRCode.id)

theorem WF_applyOps {db : DB} (hwf : WFdb db) (ops : List Op) : WFdb (applyOps db ops) := by
  induction ops generalizing db with
  | nil => exact hwf
  | cons op ops ih => exact ih (WF_applyOp hwf op)

/-! ## Preservation of referential integrity and counter consistency -/

theorem Inv_applyOp {db : DB} (hinv : Inv db) (op : Op) : Inv (applyOp db op) := by
  obtain ⟨hwf, href, hcnt⟩ := hinv
  refine ⟨WF_applyOp hwf op, ?_⟩
  cases op with
  | createCard now i n cn p =>
    rcases applyOp_createCard db now i n cn p with h | ⟨_, h2, h⟩
    · rw [h]; exact ⟨href, hcnt⟩
    · rw [h]
      constructor
      · intro q hq x hx
        obtain ⟨c0, hc0, hid⟩ := cardIdExists_iff.mp (href q hq x hx)
        exact cardIdExists_iff.mpr ⟨c0, List.mem_append_left _ hc0, hid⟩
      · intro c2 hc2
        rcases List.mem_append.mp hc2 with hold | hnew
        · exact hcnt c2 hold
        · have hc2eq : c2 = ⟨i, pyStrip n, pyStrip cn, pyStrip p, now, 0⟩ := by
            simpa using hnew
          subst hc2eq
          symm
          apply List.countP_eq_zero.mpr
          intro q hq hpred
          simp only [Bool.and_eq_true, beq_iff_eq] at hpred
          have := href q hq _ hpred.1
          rw [cardIdExists_false_iff.mpr (fun c hc => ?_)] at this
          · cases this
          · exact cardIdExists_false_iff.mp h2 c hc
  | generateCodes now base cid ids qty =>
    rcases applyOp_generateCodes db now base cid ids qty with h | ⟨h2, _, _, h⟩
    · rw [h]; exact ⟨href, hcnt⟩
    · rw [h]
      constructor
      · intro q hq x hx
        rcases List.mem_append.mp hq with hold | hnew
        · exact href q hold x hx
        · obtain ⟨j, _, hj⟩ := List.mem_map.mp hnew
          have hx2 : cid = x := by
            rw [← hj] at hx
            simpa [freshCode] using hx
          rw [← hx2]
          exact h2
      · intro c2 hc2
        rw [List.countP_append]
        have hz : (ids.map (freshCode now base cid)).countP
            (fun q => q.business_card_id == some c2.id && q.is_expired) = 0 := by
          apply List.countP_eq_zero.mpr
          intro q hq
          obtain ⟨j, _, hj⟩ := List.mem_map.mp hq
          rw [← hj]
          simp [freshCode]
        rw [hz, Nat.add_zero]
        exact hcnt c2 hc2
  | redeemOp now cid qid =>
    rcases applyOp_redeem db now cid qid with h | ⟨c, q, hfc, hfq, hexp, h⟩
    · rw [h]; exact ⟨href, hcnt⟩
    · rw [h]
      obtain ⟨hcmem, hcid⟩ := findCard_mem hfc
      obtain ⟨hqmem, hqid, hqown⟩ := findOwnedCode_mem hfq
      constructor
      · intro q2 hq2 x hx
        simp only [writePhase] at hq2
        obtain ⟨q0, hq0, hq0eq⟩ := expireCode_mem hq2
        have hown0 : q2.business_card_id = q0.business_card_id := by
          rw [hq0eq]
          by_cases hb : q0.id = qid <;> simp [hb]
        rw [hown0] at hx
        rw [cardIdExists_writePhase]
        exact href q0 hq0 x hx
      · intro c2 hc2
        simp only [writePhase] at hc2 ⊢
        obtain ⟨c0, hc0, hc0eq⟩ := bumpScanCount_mem hc2
        by_cases hb : c0.id = cid
        · rw [if_pos (by simp [hb])] at hc0eq
          have hc2id : c2.id = cid := by rw [hc0eq]; simpa using hb
          have hc2sc : c2.scan_count = c0.scan_count + 1 := by rw [hc0eq]
          rw [hc2sc, hc2id]
          rw [countP_expireCode_bump hwf.2 hqmem hqid hqown hexp]
          have hthis := hcnt c0 hc0
          rw [hb] at hthis
          rw [hthis]
        · rw [if_neg (by simp [hb])] at hc0eq
          subst hc0eq
          rw [countP_expireCode_other ?_]
          · exact hcnt c2 hc0
          · intro r hr hrid
            have hrq : r = q := code_unique hwf hr hqmem (hrid.trans hqid.symm)
            rw [hrq, hqown]
            intro hcon
            apply hb
            have h9 : cid = c2.id := by simpa using hcon
            exact h9.symm
  | viewOp t cid =>
    rw [applyOp_view]; exact ⟨href, hcnt⟩
  | deleteCard t cid =>
    rcases applyOp_deleteCard db t cid with h | ⟨_, h⟩
    · rw [h]; exact ⟨href, hcnt⟩
    · rw [h]
      constructor
      · intro q hq x hx
        have hqmem := List.mem_of_mem_filter hq
        have hqkeep : ¬ q.business_card_id = some cid := by
          have := List.of_mem_filter hq
          simpa using this
        have hxne : x ≠ cid := by
          intro hxc
          rw [hxc] at hx
          exact hqkeep hx
        obtain ⟨c0, hc0, hc0id⟩ := cardIdExists_iff.mp (href q hqmem x hx)
        apply cardIdExists_iff.mpr
        refine ⟨c0, ?_, hc0id⟩
        apply List.mem_filter.mpr
        refine ⟨hc0, ?_⟩
        simp [hc0id, hxne]
      · intro c2 hc2
        have hc2mem := List.mem_of_mem_filter hc2
        have hc2ne : ¬ c2.id = cid := by
          have := List.of_mem_filter hc2
          simpa using this
        rw [countP_filter_eq ?_]
        · exact hcnt c2 hc2mem
        · intro r _ hpred
          simp only [Bool.and_eq_true, beq_iff_eq] at hpred
          simp [hpred.1, fun hcon => hc2ne (by simpa using hcon)]

theorem Inv_applyOps {db : DB} (hinv : Inv db) (ops : List Op) : Inv (applyOps db ops) := by
  induction ops generalizing db with
  | nil => exact hinv
  | cons op ops ih => exact ih (Inv_applyOp hinv op)

theorem Inv_empty : Inv DB.empty := by
  refine ⟨⟨List.nodup_nil, List.nodup_nil⟩, ?_, ?_⟩
  · intro q hq
    cases hq
  · intro c hc
    cases hc

/-! ## C4: counter consistency -/

/-- C4: after any finite sequence of create/generate/redeem/view/delete
operations starting from the empty store, every card's `scan_count`
equals the number of its expired codes (cards are created with
`scan_count = 0`, and the first-scan transition keeps the two in step). -/
theorem C4_counter_consistency (ops : List Op) :
    counterOK (applyOps DB.empty ops) :=
  (Inv_applyOps Inv_empty ops).2.2

/-! ## C3: expiry is permanent -/

theorem expireCode_mem_image {qs : List QRCode} {now : Nat} {qid : String} {q : QRCode}
    (hq : q ∈ qs) :
    (if q.id == qid then { q with is_expired := true, scanned_at := some now } else q)
      ∈ expireCode qs now qid :=
  List.mem_map_of_mem _ hq

theorem expiredOwned_applyOp {db : DB} {cid qid : String} (h : expiredOwned db cid qid)
    (op : Op) (hop : ¬ deletesCard op cid) : expiredOwned (applyOp db op) cid qid := by
  obtain ⟨hcard, q, hq, hqid, hqown, hqexp⟩ := h
  cases op with
  | createCard now i n cn p =>
    rcases applyOp_createCard db now i n cn p with heq | ⟨_, _, heq⟩ <;> rw [heq]
    · exact ⟨hcard, q, hq, hqid, hqown, hqexp⟩
    · refine ⟨?_, q, hq, hqid, hqown, hqexp⟩
      obtain ⟨c0, hc0, hid⟩ := cardIdExists_iff.mp hcard
      exact cardIdExists_iff.mpr ⟨c0, List.mem_append_left _ hc0, hid⟩
  | generateCodes now base cid2 ids qty =>
    rcases applyOp_generateCodes db now base cid2 ids qty with heq | ⟨_, _, _, heq⟩ <;> rw [heq]
    · exact ⟨hcard, q, hq, hqid, hqown, hqexp⟩
    · exact ⟨hcard, q, List.mem_append_left _ hq, hqid, hqown, hqexp⟩
  | redeemOp now cid2 qid2 =>
    rcases applyOp_redeem db now cid2 qid2 with heq | ⟨c, q2, _, _, _, heq⟩ <;> rw [heq]
    · exact ⟨hcard, q, hq, hqid, hqown, hqexp⟩
    · refine ⟨by rw [cardIdExists_writePhase]; exact hcard,
        (if q.id == qid2 then { q with is_expired := true, scanned_at := some now } else q),
        expireCode_mem_image hq, ?_, ?_, ?_⟩
      · by_cases hb : q.id = qid2
        · rw [if_pos (by simp [hb])]
          exact hqid
        · rw [if_neg (by simp [hb])]
          exact hqid
      · by_cases hb : q.id = qid2
        · rw [if_pos (by simp [hb])]
          exact hqown
        · rw [if_neg (by simp [hb])]
          exact hqown
      · by_cases hb : q.id = qid2
        · rw [if_pos (show (q.id == qid2) = true by simp [hb])]
        · rw [if_neg (by simp [hb])]
          exact hqexp
  | viewOp t cid2 =>
    rw [applyOp_view]
    exact ⟨hcard, q, hq, hqid, hqown, hqexp⟩
  | deleteCard t cid2 =>
    have hne : ¬(cid2 = cid) := hop
    rcases applyOp_deleteCard db t cid2 with heq | ⟨_, heq⟩ <;> rw [heq]
    · exact ⟨hcard, q, hq, hqid, hqown, hqexp⟩
    · refine ⟨?_, q, ?_, hqid, hqown, hqexp⟩
      · obtain ⟨c0, hc0, hid⟩ := cardIdExists_iff.mp hcard
        refine cardIdExists_iff.mpr ⟨c0, List.mem_filter.mpr ⟨hc0, ?_⟩, hid⟩
        have hne2 : c0.id ≠ cid2 := by
          rw [hid]
          exact fun hcon => hne hcon.symm
        simp [hne2]
      · refine List.mem_filter.mpr ⟨hq, ?_⟩
        have hne2 : ¬ q.business_card_id = some cid2 := by
          rw [hqown]
          intro hcon
          have hcc : cid = cid2 := by simpa using hcon
          exact hne hcc.symm
        simp [hne2]

theorem expiredOwned_applyOps {db : DB} {cid qid : String} {ops : List Op}
    (h : expiredOwned db cid qid) (hops : ∀ op ∈ ops, ¬ deletesCard op cid) :
    expiredOwned (applyOps db ops) cid qid := by
  induction ops generalizing db with
  | nil => exact h
  | cons op ops ih =>
    exact ih (expiredOwned_applyOp h op (hops op (List.mem_cons_self op ops)))
      (fun o ho => hops o (List.mem_cons_of_mem op ho))

theorem redeem_already_expired_of {db : DB} {cid qid : String} {now : Nat}
    (hwf : WFdb db) (h : expiredOwned db cid qid) :
    (redeem db now cid qid).1 = Outcome.ALREADY_EXPIRED := by
  obtain ⟨hcard, q, hq, hqid, hqown, hqexp⟩ := h
  obtain ⟨c, hfc⟩ := findCard_isSome_of_exists hcard
  have hfq := findOwnedCode_of_mem hwf hq hqid hqown
  simp [redeem, redeemRead, joinLookup, hfc, hfq, hqexp]

/-- C3: once a redeem call on `(card_id, code_id)` has returned
`FIRST_SCAN`, every later redeem call for the same pair returns
`ALREADY_EXPIRED`, whatever other operations run in between, as long as
none of them deletes the owning card. -/
theorem C3_expired_stays_expired (db : DB) (t0 t : Nat) (cid qid n o p : String) (k : Nat)
    (ops : List Op) (hwf : WFdb db)
    (h : (redeem db t0 cid qid).1 = Outcome.FIRST_SCAN n o p k)
    (hops : ∀ op ∈ ops, ¬ deletesCard op cid) :
    (redeem (applyOps (redeem db t0 cid qid).2 ops) t cid qid).1
      = Outcome.ALREADY_EXPIRED := by
  rcases hr : redeemRead db cid qid with _ | _ | _ | ⟨n', o', p', k'⟩ <;>
    simp [redeem, hr] at h
  obtain ⟨c, q, hfc, hfq, hexp, _, _, _, _⟩ := redeemRead_proceed hr
  obtain ⟨hqmem, hqid, hqown⟩ := findOwnedCode_mem hfq
  have hsnd : (redeem db t0 cid qid).2 = writePhase db t0 cid qid := by
    simp [redeem, hr]
  rw [hsnd]
  have hwf1 : WFdb (writePhase db t0 cid qid) := WF_writePhase hwf t0 cid qid
  have hEO : expiredOwned (writePhase db t0 cid qid) cid qid := by
    refine ⟨by rw [cardIdExists_writePhase]; exact cardIdExists_of_findCard hfc,
      { q with is_expired := true, scanned_at := some t0 }, ?_, hqid, hqown, rfl⟩
    have himg := @expireCode_mem_image db.qr_codes t0 qid q hqmem
    rw [if_pos (by simp [hqid])] at himg
    exact himg
  exact redeem_already_expired_of (WF_applyOps hwf1 ops) (expiredOwned_applyOps hEO hops)

/-- Witness for C3: a first scan on the one-card one-code store followed
by a view leaves the pair permanently expired. -/
theorem C3_expired_stays_expired_witness :
    (redeem (applyOps (redeem dbEx 5 "c1" "q1").2 [Op.viewOp 7 "c1"]) 9 "c1" "q1").1
      = Outcome.ALREADY_EXPIRED :=
  C3_expired_stays_expired dbEx 5 9 "c1" "q1" "Ann" "Acme" "0812" 1 [Op.viewOp 7 "c1"]
    (by decide) (by decide)
    (by
      intro op hop
      rw [List.mem_singleton] at hop
      rw [hop]
      intro hcon
      exact hcon)

/-! ## C8: expired codes carry a scan timestamp at or after creation -/

theorem I1_clock_applyOp {db : DB} {n : Nat} (op : Op)
    (h1 : I1 db) (h2 : clockLE db n) (ht : n ≤ op.time) :
    I1 (applyOp db op) ∧ clockLE (applyOp db op) op.time := by
  cases op with
  | createCard now i nm cn p =>
    rcases applyOp_createCard db now i nm cn p with heq | ⟨_, _, heq⟩ <;> rw [heq] <;>
      exact ⟨h1, fun q hq => le_trans (h2 q hq) ht⟩
  | generateCodes now base cid ids qty =>
    rcases applyOp_generateCodes db now base cid ids qty with heq | ⟨_, _, _, heq⟩ <;> rw [heq]
    · exact ⟨h1, fun q hq => le_trans (h2 q hq) ht⟩
    · constructor
      · intro q hq hqexp
        rcases List.mem_append.mp hq with hold | hnew
        · exact h1 q hold hqexp
        · obtain ⟨j, _, hj⟩ := List.mem_map.mp hnew
          rw [← hj] at hqexp
          exact absurd hqexp (by simp [freshCode])
      · intro q hq
        rcases List.mem_append.mp hq with hold | hnew
        · exact le_trans (h2 q hold) ht
        · obtain ⟨j, _, hj⟩ := List.mem_map.mp hnew
          rw [← hj]
          exact le_refl now
  | redeemOp now cid qid =>
    rcases applyOp_redeem db now cid qid with heq | ⟨c, q0, _, _, _, heq⟩ <;> rw [heq]
    · exact ⟨h1, fun q hq => le_trans (h2 q hq) ht⟩
    · constructor
      · intro q2 hq2 hq2exp
        simp only [writePhase] at hq2
        obtain ⟨q0, hq0, hq0eq⟩ := expireCode_mem hq2
        by_cases hb : q0.id = qid
        · rw [if_pos (by simp [hb])] at hq0eq
          rw [hq0eq]
          exact ⟨now, rfl, le_trans (h2 q0 hq0) ht⟩
        · rw [if_neg (by simp [hb])] at hq0eq
          rw [hq0eq] at hq2exp ⊢
          exact h1 q0 hq0 hq2exp
      · intro q2 hq2
        simp only [writePhase] at hq2
        obtain ⟨q0, hq0, hq0eq⟩ := expireCode_mem hq2
        have hcr : q2.created_at = q0.created_at := by
          rw [hq0eq]
          by_cases hb : q0.id = qid <;> simp [hb]
        rw [hcr]
        exact le_trans (h2 q0 hq0) ht
  | viewOp t cid =>
    rw [applyOp_view]
    exact ⟨h1, fun q hq => le_trans (h2 q hq) ht⟩
  | deleteCard t cid =>
    rcases applyOp_deleteCard db t cid with heq | ⟨_, heq⟩ <;> rw [heq]
    · exact ⟨h1, fun q hq => le_trans (h2 q hq) ht⟩
    · constructor
      · intro q hq hqexp
        exact h1 q (List.mem_of_mem_filter hq) hqexp
      · intro q hq
        exact le_trans (h2 q (List.mem_of_mem_filter hq)) ht

theorem I1_applyOps {db : DB} {n : Nat} {ops : List Op}
    (h1 : I1 db) (h2 : clockLE db n) (hc : Chrono n ops) : I1 (applyOps db ops) := by
  induction ops generalizing db n with
  | nil => exact h1
  | cons op ops ih =>
    obtain ⟨hn, hc2⟩ := hc
    obtain ⟨h1b, h2b⟩ := I1_clock_applyOp op h1 h2 hn
    exact ih h1b h2b hc2

/-- C8: codes are inserted unexpired with a NULL `scanned_at` and
`created_at` set to the current instant, and — provided the starting
state satisfies the invariant and operations run in wall-clock order —
every expired code row always carries a `scanned_at` timestamp at or
after its `created_at`. -/
theorem C8_expired_has_scan_timestamp (db : DB) (n : Nat) (ops : List Op)
    (h1 : I1 db) (h2 : clockLE db n) (hc : Chrono n ops) :
    I1 (applyOps db ops) ∧
    ∀ now base cid i, (freshCode now base cid i).is_expired = false ∧
      (freshCode now base cid i).scanned_at = none ∧
      (freshCode now base cid i).created_at = now :=
  ⟨I1_applyOps h1 h2 hc, fun _ _ _ _ => ⟨rfl, rfl, rfl⟩⟩

/-- Witness for C8: a redeem at instant 5 on the store created at
instant 0. -/
theorem C8_expired_has_scan_timestamp_witness :
    I1 (applyOps dbEx [Op.redeemOp 5 "c1" "q1"]) ∧
    ∀ now base cid i, (freshCode now base cid i).is_expired = false ∧
      (freshCode now base cid i).scanned_at = none ∧
      (freshCode now base cid i).created_at = now :=
  C8_expired_has_scan_timestamp dbEx 0 [Op.redeemOp 5 "c1" "q1"]
    (by
      intro q hq hqexp
      rw [show dbEx.qr_codes = [codeEx] from rfl, List.mem_singleton] at hq
      rw [hq] at hqexp
      exact absurd hqexp (by decide))
    (by
      intro q hq
      rw [show dbEx.qr_codes = [codeEx] from rfl, List.mem_singleton] at hq
      rw [hq]
      exact Nat.le_refl 0)
    ⟨by decide, trivial⟩

/-! ## C9: the card-list search filter -/

theorem mem_suffixes {t u : List Char} : u ∈ suffixes t ↔ u <:+ t := by
  induction t with
  | nil => simp [suffixes, List.suffix_nil]
  | cons a t ih => simp [suffixes, List.suffix_cons_iff, ih]

theorem likeMatch_pct_cons (p t : List Char) :
    (likeMatch ('%' :: p) t = true) ↔ ∃ u, u <:+ t ∧ likeMatch p u = true := by
  have hshow : likeMatch ('%' :: p) t = (suffixes t).any (fun u => likeMatch p u) := by
    simp [likeMatch]
  rw [hshow, List.any_eq_true]
  constructor
  · rintro ⟨u, hu, hlike⟩
    exact ⟨u, mem_suffixes.mp hu, hlike⟩
  · rintro ⟨u, hu, hlike⟩
    exact ⟨u, mem_suffixes.mpr hu, hlike⟩

theorem likeMatch_append_pct {s : List Char} (hs : ∀ a ∈ s, a ≠ '%' ∧ a ≠ '_')
    (t : List Char) : (likeMatch (s ++ ['%']) t = true) ↔ s <+: t := by
  induction s generalizing t with
  | nil =>
    rw [List.nil_append]
    constructor
    · intro _
      exact List.nil_prefix
    · intro _
      rw [likeMatch_pct_cons]
      exact ⟨[], List.nil_suffix, rfl⟩
  | cons a s ih =>
    have ha := hs a (List.mem_cons_self a s)
    have ihs := ih (fun b hb => hs b (List.mem_cons_of_mem a hb))
    cases t with
    | nil =>
      rw [List.cons_append]
      simp [likeMatch, ha.1]
    | cons c t =>
      rw [List.cons_append, List.cons_prefix_cons]
      simp only [likeMatch, if_neg ha.1]
      simp [Bool.and_eq_true, Bool.or_eq_true, beq_iff_eq, ha.2, ihs t]

theorem likeMatch_substring {s : List Char} (hs : ∀ a ∈ s, a ≠ '%' ∧ a ≠ '_')
    (t : List Char) : (likeMatch ('%' :: (s ++ ['%'])) t = true) ↔ s <:+: t := by
  rw [likeMatch_pct_cons]
  constructor
  · rintro ⟨u, hu, hlike⟩
    exact List.infix_iff_prefix_suffix.mpr ⟨u, (likeMatch_append_pct hs u).mp hlike, hu⟩
  · intro h
    obtain ⟨u, hpre, hsuf⟩ := List.infix_iff_prefix_suffix.mp h
    exact ⟨u, hsuf, (likeMatch_append_pct hs u).mpr hpre⟩

theorem char_ofNat_toNat {n : Nat} (h : n < 55296) : (Char.ofNat n).toNat = n := by
  unfold Char.ofNat
  rw [dif_pos (Or.inl (by omega) : n.isValidChar)]
  simp [Char.toNat, Char.ofNatAux, UInt32.toNat]

theorem lowerChar_ne_low {b w : Char} (hw : w.toNat < 97) (hb : b ≠ w) : lowerChar b ≠ w := by
  unfold lowerChar
  by_cases hc : 'A' ≤ b ∧ b ≤ 'Z'
  · rw [if_pos hc]
    intro hcon
    obtain ⟨h1, h2⟩ := hc
    rw [Char.le_def] at h1 h2
    have h1b : 65 ≤ b.toNat := h1
    have h2b : b.toNat ≤ 90 := h2
    have ht : (Char.ofNat (b.toNat + 32)).toNat = b.toNat + 32 :=
      char_ofNat_toNat (by omega)
    have hcc := congrArg Char.toNat hcon
    rw [ht] at hcc
    omega
  · rw [if_neg hc]
    exact hb

theorem noWildcards_lower {s : String} (hs : noWildcards s = true) :
    ∀ a ∈ lowerStr s.data, a ≠ '%' ∧ a ≠ '_' := by
  intro a ha
  obtain ⟨b, hb, hba⟩ := List.mem_map.mp ha
  have hball : ∀ c ∈ s.data, ¬(c = '%') ∧ ¬(c = '_') := by
    simpa [noWildcards, List.all_eq_true] using hs
  obtain ⟨hb1, hb2⟩ := hball b hb
  rw [← hba]
  exact ⟨lowerChar_ne_low (by decide) hb1, lowerChar_ne_low (by decide) hb2⟩

theorem lowerStr_pattern (s : String) :
    lowerStr ('%' :: s.data ++ ['%']) = '%' :: (lowerStr s.data ++ ['%']) := by
  simp only [lowerStr, List.map_cons, List.map_append, List.map_cons, List.map_nil]
  rw [show lowerChar '%' = '%' from by decide, List.cons_append]

theorem matchesSearch_eq_containsCI {s : String} (hs : noWildcards s = true) (c : Card) :
    matchesSearch s c = decide (containsCI s c.company_name) := by
  unfold matchesSearch containsCI
  rw [lowerStr_pattern]
  by_cases hP : lowerStr s.data <:+: lowerStr c.company_name.data
  · rw [(likeMatch_substring (noWildcards_lower hs) _).mpr hP, decide_eq_true hP]
  · cases hlm : likeMatch ('%' :: (lowerStr s.data ++ ['%']))
        (lowerStr c.company_name.data) with
    | true => exact absurd ((likeMatch_substring (noWildcards_lower hs) _).mp hlm) hP
    | false => rw [decide_eq_false hP]

/-- C9 (counterexample to the claim as stated): the code passes the raw
search string into a `LIKE` pattern, so the wildcard `_` matches any
single character: for the store whose only card's organization name is
"x", a search for "_" returns that card, though "x" does not contain
"_" as a (case-insensitive) substring. -/
theorem C9_like_wildcard_counterexample :
    (get_business_cards dbLike "_").map CardSummary.company_name = ["x"] ∧
    ¬ containsCI "_" "x" := by
  constructor
  · decide
  · decide

/-- C9 (amended): for every search string free of the SQL `LIKE`
wildcards `%` and `_`, `listCards` returns exactly the cards whose
organization name contains the trimmed search string as a
case-insensitive substring (all cards when the trimmed search string is
empty), each annotated with the count of code rows referencing it, and
sorted newest-first by creation time. -/
theorem C9_listCards_amended (db : DB) (s : String)
    (hs : noWildcards (pyStrip s) = true) :
    (get_business_cards db s).Perm
      ((db.business_cards.filter
        (fun c => (pyStrip s).isEmpty
          || decide (containsCI (pyStrip s) c.company_name))).map (summarize db)) ∧
    List.Sorted newestFirst (get_business_cards db s) := by
  constructor
  · unfold get_business_cards
    by_cases he : (pyStrip s).isEmpty = true
    · rw [if_pos he]
      have hall : db.business_cards.filter
          (fun c => (pyStrip s).isEmpty || decide (containsCI (pyStrip s) c.company_name))
            = db.business_cards := by
        apply List.filter_eq_self.mpr
        intro c _
        rw [he]
        rfl
      rw [hall]
      exact List.perm_insertionSort newestFirst _
    · rw [if_neg he]
      have hsame : db.business_cards.filter (matchesSearch (pyStrip s))
          = db.business_cards.filter
            (fun c => (pyStrip s).isEmpty
              || decide (containsCI (pyStrip s) c.company_name)) := by
        apply List.filter_congr
        intro c _
        rw [matchesSearch_eq_containsCI hs c]
        rw [show (pyStrip s).isEmpty = false from by
          cases hb : (pyStrip s).isEmpty with
          | false => rfl
          | true => exact absurd hb he]
        rw [Bool.false_or]
      rw [← hsame]
      exact List.perm_insertionSort newestFirst _
  · unfold get_business_cards
    apply @List.sorted_insertionSort CardSummary newestFirst _
      ⟨fun a b => Nat.le_total b.created_at a.created_at⟩
      ⟨fun a b c hab hbc => Nat.le_trans hbc hab⟩

/-- Witness for C9 (amended) at a concrete wildcard-free search. -/
theorem C9_listCards_amended_witness :
    (get_business_cards dbLike "x").Perm
      ((dbLike.business_cards.filter
        (fun c => (pyStrip "x").isEmpty
          || decide (containsCI (pyStrip "x") c.company_name))).map (summarize dbLike)) ∧
    List.Sorted newestFirst (get_business_cards dbLike "x") :=
  C9_listCards_amended dbLike "x" (by decide)

/-! ## C10: quantity bound checked before card existence -/

/-- C10: in the interactive generation handler the 1–100 bound on
`quantity` is checked before the card-existence query, so an
out-of-range quantity always produces the validation error — even for a
nonexistent card — and inserts nothing. -/
theorem C10_quantity_checked_before_card (db : DB) (now : Nat) (base cid : String)
    (ids : List String) (qty : Int) (h : qty < 1 ∨ qty > 100) :
    generate_business_card_qr db now base cid ids qty
      = Except.error RepoError.validation ∧
    applyOp db (Op.generateCodes now base cid ids qty) = db := by
  constructor
  · simp [generate_business_card_qr, h]
  · simp [applyOp, generate_business_card_qr, h]

/-- Witness for C10: quantity 0 on the empty store (card absent). -/
theorem C10_quantity_checked_before_card_witness :
    generate_business_card_qr DB.empty 0 "u" "nope" [] 0
      = Except.error RepoError.validation ∧
    applyOp DB.empty (Op.generateCodes 0 "u" "nope" [] 0) = DB.empty :=
  C10_quantity_checked_before_card DB.empty 0 "u" "nope" [] 0 (Or.inl (by decide))

end QRProject
